import Mathlib

/-!
Verification of the Black-Scholes option pricing repository.

Shallow embedding of the class BlackScholes from BlackScholes.py and of the
sweep functions plot_heatmap / plot_pnl_heatmap from streamlit_app.py.
Python floats are modelled as real numbers; scipy.stats.norm.cdf and
scipy.stats.norm.pdf are modelled by the standard normal CDF and PDF over ℝ.
A Python object is modelled as a record whose attributes created by run are
Option-valued (absent before run); run is a state transformer on that record.
-/

noncomputable section

namespace BSModel

open MeasureTheory intervalIntegral

/-- Standard normal probability density function; models scipy.stats.norm.pdf. -/
def normPdf (x : ℝ) : ℝ := (Real.sqrt (2 * Real.pi))⁻¹ * Real.exp (-(x ^ 2) / 2)

/-- Standard normal cumulative distribution function; models scipy.stats.norm.cdf.
Written as the value at 0 (one half) plus the integral of the density from 0 to x;
the lemma normCdf_eq_integral_Iic below shows this equals the usual integral of
the density over Iic x. -/
def normCdf (x : ℝ) : ℝ := 1 / 2 + ∫ t in (0:ℝ)..x, normPdf t

/-- State of a Python BlackScholes object: the five constructor parameters plus
the six attributes that the method run creates by mutation (absent before run is
called, hence Option-valued). -/
structure BlackScholes where
  time_to_maturity : ℝ
  strike : ℝ
  current_price : ℝ
  volatility : ℝ
  interest_rate : ℝ
  call_price : Option ℝ
  put_price : Option ℝ
  call_delta : Option ℝ
  put_delta : Option ℝ
  call_gamma : Option ℝ
  put_gamma : Option ℝ

/-- Constructor BlackScholes.__init__: stores the five parameters; none of the
output attributes exists yet. -/
def mkBS (time_to_maturity strike current_price volatility interest_rate : ℝ) : BlackScholes :=
  ⟨time_to_maturity, strike, current_price, volatility, interest_rate,
   none, none, none, none, none, none⟩

/-- Method calculate_d1 of BlackScholes.py. -/
def calculate_d1 (time_to_maturity strike current_price volatility interest_rate : ℝ) : ℝ :=
  (Real.log (current_price / strike) +
      (interest_rate + 0.5 * volatility ^ 2) * time_to_maturity) /
    (volatility * Real.sqrt time_to_maturity)

/-- Method calculate_d2 of BlackScholes.py. -/
def calculate_d2 (time_to_maturity volatility d1 : ℝ) : ℝ :=
  d1 - volatility * Real.sqrt time_to_maturity

/-- Method call_option_price of BlackScholes.py. -/
def call_option_price (time_to_maturity strike current_price interest_rate d1 d2 : ℝ) : ℝ :=
  current_price * normCdf d1 -
    strike * Real.exp (-(interest_rate * time_to_maturity)) * normCdf d2

/-- Method put_option_price of BlackScholes.py. -/
def put_option_price (time_to_maturity strike current_price interest_rate d1 d2 : ℝ) : ℝ :=
  strike * Real.exp (-(interest_rate * time_to_maturity)) * normCdf (-d2) -
    current_price * normCdf (-d1)

/-- Method set_option_prices of BlackScholes.py: mutates the attributes
call_price and put_price of self. -/
def set_option_prices (self : BlackScholes) (call_price put_price : ℝ) : BlackScholes :=
  { self with call_price := some call_price, put_price := some put_price }

/-- Method calculate_greeks_delta of BlackScholes.py: mutates call_delta and
put_delta of self. -/
def calculate_greeks_delta (self : BlackScholes) (d1 : ℝ) : BlackScholes :=
  { self with call_delta := some (normCdf d1), put_delta := some (1 - normCdf d1) }

/-- Method calculate_greeks_gamma of BlackScholes.py: mutates call_gamma, then
sets put_gamma to the same value. -/
def calculate_greeks_gamma (self : BlackScholes)
    (time_to_maturity strike volatility d1 : ℝ) : BlackScholes :=
  { self with
    call_gamma := some (normPdf d1 / (strike * volatility * Real.sqrt time_to_maturity)),
    put_gamma := some (normPdf d1 / (strike * volatility * Real.sqrt time_to_maturity)) }

/-- Method run of BlackScholes.py: reads the five parameters off self, computes
d1, d2 and the two prices, then stores prices and Greeks by mutating attributes
of self.  The function value is the post-state of the object; the value the
Python call returns is modelled separately by run_return. -/
def run (self : BlackScholes) : BlackScholes :=
  let time_to_maturity := self.time_to_maturity
  let strike := self.strike
  let current_price := self.current_price
  let volatility := self.volatility
  let interest_rate := self.interest_rate
  let d1 := calculate_d1 time_to_maturity strike current_price volatility interest_rate
  let d2 := calculate_d2 time_to_maturity volatility d1
  let call_price := call_option_price time_to_maturity strike current_price interest_rate d1 d2
  let put_price := put_option_price time_to_maturity strike current_price interest_rate d1 d2
  let self := set_option_prices self call_price put_price
  let self := calculate_greeks_delta self d1
  calculate_greeks_gamma self time_to_maturity strike volatility d1

/-- Python runtime values, as far as the callers of run observe them. -/
inductive PyVal where
  | none : PyVal
  | float : ℝ → PyVal
  | tuple : List PyVal → PyVal

/-- Python exceptions the modelled code can raise, plus the InvalidParameter
error named by the specification (which no code path of the repository
produces). -/
inductive PyError where
  | typeError : PyError
  | zeroDivisionError : PyError
  | invalidParameter : PyError
deriving DecidableEq

/-- Value a Python call of BlackScholes.run returns: the method body contains no
return statement, so the call evaluates to None. -/
def run_return (self : BlackScholes) : PyVal := PyVal.none

/-- Tuple unpacking in the form a, b = e: succeeds only when e is a two-element
tuple; unpacking None raises TypeError (None is not iterable). -/
def unpack2 : PyVal → Except PyError (PyVal × PyVal)
  | PyVal.tuple [a, b] => Except.ok (a, b)
  | _ => Except.error PyError.typeError

/-- Method run together with its exception behaviour when the parameters are
CPython floats, as the sidebar inputs of streamlit_app.py supply them: the only
statement in run that can raise is the float division current_price / strike
inside calculate_d1, which raises ZeroDivisionError when strike equals 0.  All
other degenerate inputs flow through the numpy primitives log and sqrt and
through float64 divisions, which return nan or inf with a RuntimeWarning rather
than raising, and the class performs no parameter validation of any kind, so no
other input makes run fail. -/
def runE (self : BlackScholes) : Except PyError BlackScholes :=
  if self.strike = 0 then Except.error PyError.zeroDivisionError else Except.ok (run self)

/-- Function plot_heatmap of streamlit_app.py: for each vol in vol_range (outer
loop, ascending) and each spot in spot_range (inner loop, ascending), build a
fresh BlackScholes object from the base object's time_to_maturity and
interest_rate, the fixed strike, the swept spot and vol, call run on it, and
record its call_price and put_price attributes into row i, column j of the two
matrices.  Result: (call price matrix, put price matrix). -/
def plot_heatmap (bs_model : BlackScholes) (spot_range vol_range : List ℝ) (strike : ℝ) :
    List (List ℝ) × List (List ℝ) :=
  (vol_range.map fun vol => spot_range.map fun spot =>
    ((run (mkBS bs_model.time_to_maturity strike spot vol bs_model.interest_rate)).call_price).getD 0,
   vol_range.map fun vol => spot_range.map fun spot =>
    ((run (mkBS bs_model.time_to_maturity strike spot vol bs_model.interest_rate)).put_price).getD 0)

/-- Function plot_pnl_heatmap of streamlit_app.py: the same sweep, but the body
of each cell first executes the statement
call_price, put_price = bs_temp.run(), a tuple unpacking of the value run
returns, before assigning the intrinsic-value P&L pair of that cell; an
exception raised in a cell propagates out of the whole function. -/
def plot_pnl_heatmap (bs_model : BlackScholes) (spot_range vol_range : List ℝ)
    (strike purchase_price_call purchase_price_put : ℝ) :
    Except PyError (List (List ℝ) × List (List ℝ)) := do
  let cells ← vol_range.mapM fun vol => spot_range.mapM fun spot => do
    let bs_temp := mkBS bs_model.time_to_maturity strike spot vol bs_model.interest_rate
    let _ ← unpack2 (run_return bs_temp)
    pure (max 0 (spot - strike) - purchase_price_call,
          max 0 (strike - spot) - purchase_price_put)
  pure (cells.map (List.map Prod.fst), cells.map (List.map Prod.snd))

/-- Formula for d1 as displayed in the specification. -/
def spec_d1 (spot strike volatility r T : ℝ) : ℝ :=
  (Real.log (spot / strike) + (r + 0.5 * volatility ^ 2) * T) / (volatility * Real.sqrt T)

/-- Formula for d2 as displayed in the specification. -/
def spec_d2 (spot strike volatility r T : ℝ) : ℝ :=
  spec_d1 spot strike volatility r T - volatility * Real.sqrt T

/-- Formula for the call price as displayed in the specification. -/
def spec_call_price (spot strike volatility r T : ℝ) : ℝ :=
  spot * normCdf (spec_d1 spot strike volatility r T) -
    strike * Real.exp (-r * T) * normCdf (spec_d2 spot strike volatility r T)

/-- Formula for the put price as displayed in the specification. -/
def spec_put_price (spot strike volatility r T : ℝ) : ℝ :=
  strike * Real.exp (-r * T) * normCdf (-spec_d2 spot strike volatility r T) -
    spot * normCdf (-spec_d1 spot strike volatility r T)

/-!
Facts about the standard normal density and distribution functions.
-/

lemma normPdf_pos (x : ℝ) : 0 < normPdf x := by
  unfold normPdf
  have h2π : 0 < 2 * Real.pi := by positivity
  positivity

lemma normPdf_nonneg (x : ℝ) : 0 ≤ normPdf x := (normPdf_pos x).le

lemma normPdf_neg (x : ℝ) : normPdf (-x) = normPdf x := by
  simp [normPdf, neg_sq]

lemma normPdf_eq_gauss (x : ℝ) :
    normPdf x = (Real.sqrt (2 * Real.pi))⁻¹ * Real.exp (-(2⁻¹ : ℝ) * x ^ 2) := by
  unfold normPdf
  congr 1
  ring_nf

lemma continuous_normPdf : Continuous normPdf := by
  unfold normPdf
  continuity

lemma integrable_normPdf : Integrable normPdf := by
  have h : normPdf = fun x : ℝ =>
      (Real.sqrt (2 * Real.pi))⁻¹ * Real.exp (-(2⁻¹ : ℝ) * x ^ 2) := by
    funext x; exact normPdf_eq_gauss x
  rw [h]
  exact (integrable_exp_neg_mul_sq (by norm_num)).const_mul _

lemma sqrt_two_pi_pos : 0 < Real.sqrt (2 * Real.pi) := by
  have h2π : 0 < 2 * Real.pi := by positivity
  exact Real.sqrt_pos.mpr h2π

lemma integral_normPdf_Ioi : ∫ x in Set.Ioi (0:ℝ), normPdf x = 1 / 2 := by
  have h : ∫ x in Set.Ioi (0:ℝ), normPdf x =
      (Real.sqrt (2 * Real.pi))⁻¹ * ∫ x in Set.Ioi (0:ℝ), Real.exp (-(2⁻¹ : ℝ) * x ^ 2) := by
    rw [← integral_mul_left]
    exact setIntegral_congr_fun measurableSet_Ioi fun x _ => normPdf_eq_gauss x
  rw [h, integral_gaussian_Ioi]
  have hπ : Real.pi / (2⁻¹ : ℝ) = 2 * Real.pi := by ring
  rw [hπ]
  field_simp

lemma integral_normPdf : ∫ x, normPdf x = 1 := by
  have h : ∫ x, normPdf x =
      (Real.sqrt (2 * Real.pi))⁻¹ * ∫ x : ℝ, Real.exp (-(2⁻¹ : ℝ) * x ^ 2) := by
    rw [← integral_mul_left]
    exact integral_congr_ae (Filter.Eventually.of_forall fun x => normPdf_eq_gauss x)
  rw [h, integral_gaussian]
  have hπ : Real.pi / (2⁻¹ : ℝ) = 2 * Real.pi := by ring
  rw [hπ]
  field_simp

lemma integral01_nonneg {x : ℝ} (hx : 0 ≤ x) : 0 ≤ ∫ t in (0:ℝ)..x, normPdf t :=
  intervalIntegral.integral_nonneg hx fun u _ => normPdf_nonneg u

lemma integral01_le_half {x : ℝ} (hx : 0 ≤ x) : ∫ t in (0:ℝ)..x, normPdf t ≤ 1 / 2 := by
  rw [intervalIntegral.integral_of_le hx]
  calc ∫ t in Set.Ioc 0 x, normPdf t
      ≤ ∫ t in Set.Ioi (0:ℝ), normPdf t := by
        refine setIntegral_mono_set integrable_normPdf.integrableOn ?_ ?_
        · exact Filter.Eventually.of_forall fun t => normPdf_nonneg t
        · exact HasSubset.Subset.eventuallyLE Set.Ioc_subset_Ioi_self
    _ = 1 / 2 := integral_normPdf_Ioi

lemma integral01_neg (x : ℝ) :
    ∫ t in (0:ℝ)..(-x), normPdf t = -∫ t in (0:ℝ)..x, normPdf t := by
  have h : ∫ t in (0:ℝ)..(-x), normPdf t = ∫ t in (0:ℝ)..(-x), normPdf (-t) := by
    refine intervalIntegral.integral_congr fun t _ => ?_
    rw [normPdf_neg]
  rw [h, intervalIntegral.integral_comp_neg]
  simp only [neg_zero, neg_neg]
  rw [intervalIntegral.integral_symm]

lemma normCdf_neg (x : ℝ) : normCdf (-x) = 1 - normCdf x := by
  unfold normCdf
  rw [integral01_neg]
  ring

lemma normCdf_nonneg (x : ℝ) : 0 ≤ normCdf x := by
  rcases le_or_lt 0 x with hx | hx
  · have := integral01_nonneg hx
    unfold normCdf
    linarith
  · have hx' : (0:ℝ) ≤ -x := by linarith
    have h1 : normCdf (-(-x)) = 1 - normCdf (-x) := normCdf_neg (-x)
    rw [neg_neg] at h1
    have h2 : normCdf (-x) ≤ 1 := by
      have := integral01_le_half hx'
      unfold normCdf
      linarith
    linarith

lemma normCdf_le_one (x : ℝ) : normCdf x ≤ 1 := by
  rcases le_or_lt 0 x with hx | hx
  · have := integral01_le_half hx
    unfold normCdf
    linarith
  · have hx' : (0:ℝ) ≤ -x := by linarith
    have h1 : normCdf (-(-x)) = 1 - normCdf (-x) := normCdf_neg (-x)
    rw [neg_neg] at h1
    have h2 : 0 ≤ normCdf (-x) := normCdf_nonneg (-x)
    linarith

lemma hasDerivAt_normCdf (x : ℝ) : HasDerivAt normCdf (normPdf x) x := by
  unfold normCdf
  exact ((continuous_normPdf.integral_hasStrictDerivAt 0 x).hasDerivAt).const_add (1 / 2)

lemma integral_normPdf_Iic : ∫ x in Set.Iic (0:ℝ), normPdf x = 1 / 2 := by
  have h := integral_Iic_add_Ioi (b := (0:ℝ))
    integrable_normPdf.integrableOn integrable_normPdf.integrableOn
  rw [integral_normPdf, integral_normPdf_Ioi] at h
  linarith

/-- Sanity check for the definition of normCdf: it agrees with the usual
integral of the density over Iic x. -/
lemma normCdf_eq_integral_Iic (x : ℝ) : normCdf x = ∫ t in Set.Iic x, normPdf t := by
  rcases le_or_lt 0 x with hx | hx
  · have hu : Set.Iic (0:ℝ) ∪ Set.Ioc 0 x = Set.Iic x := Set.Iic_union_Ioc_eq_Iic hx
    rw [normCdf, intervalIntegral.integral_of_le hx, ← hu,
      setIntegral_union (Set.Iic_disjoint_Ioc le_rfl) measurableSet_Ioc
        integrable_normPdf.integrableOn integrable_normPdf.integrableOn,
      integral_normPdf_Iic]
  · have hu : Set.Iic x ∪ Set.Ioc x 0 = Set.Iic (0:ℝ) := Set.Iic_union_Ioc_eq_Iic hx.le
    have hsum : (∫ t in Set.Iic x, normPdf t) + ∫ t in Set.Ioc x 0, normPdf t = 1 / 2 := by
      rw [← setIntegral_union (Set.Iic_disjoint_Ioc le_rfl) measurableSet_Ioc
        integrable_normPdf.integrableOn integrable_normPdf.integrableOn, hu,
        integral_normPdf_Iic]
    have hsymm : ∫ t in (0:ℝ)..x, normPdf t = -∫ t in Set.Ioc x 0, normPdf t := by
      rw [intervalIntegral.integral_symm, intervalIntegral.integral_of_le hx.le]
    rw [normCdf, hsymm]
    linarith

/-!
Unfolding lemmas for the method run: which value each attribute holds after the
call, and that the five parameter attributes are untouched.
-/

lemma run_call_price (self : BlackScholes) :
    (run self).call_price = some (call_option_price self.time_to_maturity self.strike
      self.current_price self.interest_rate
      (calculate_d1 self.time_to_maturity self.strike self.current_price self.volatility
        self.interest_rate)
      (calculate_d2 self.time_to_maturity self.volatility
        (calculate_d1 self.time_to_maturity self.strike self.current_price self.volatility
          self.interest_rate))) := rfl

lemma run_put_price (self : BlackScholes) :
    (run self).put_price = some (put_option_price self.time_to_maturity self.strike
      self.current_price self.interest_rate
      (calculate_d1 self.time_to_maturity self.strike self.current_price self.volatility
        self.interest_rate)
      (calculate_d2 self.time_to_maturity self.volatility
        (calculate_d1 self.time_to_maturity self.strike self.current_price self.volatility
          self.interest_rate))) := rfl

lemma run_call_delta (self : BlackScholes) :
    (run self).call_delta = some (normCdf
      (calculate_d1 self.time_to_maturity self.strike self.current_price self.volatility
        self.interest_rate)) := rfl

lemma run_put_delta (self : BlackScholes) :
    (run self).put_delta = some (1 - normCdf
      (calculate_d1 self.time_to_maturity self.strike self.current_price self.volatility
        self.interest_rate)) := rfl

lemma run_call_gamma (self : BlackScholes) :
    (run self).call_gamma = some (normPdf
      (calculate_d1 self.time_to_maturity self.strike self.current_price self.volatility
        self.interest_rate) /
      (self.strike * self.volatility * Real.sqrt self.time_to_maturity)) := rfl

lemma run_put_gamma (self : BlackScholes) :
    (run self).put_gamma = some (normPdf
      (calculate_d1 self.time_to_maturity self.strike self.current_price self.volatility
        self.interest_rate) /
      (self.strike * self.volatility * Real.sqrt self.time_to_maturity)) := rfl

lemma run_inputs_unchanged (self : BlackScholes) :
    (run self).time_to_maturity = self.time_to_maturity ∧
    (run self).strike = self.strike ∧
    (run self).current_price = self.current_price ∧
    (run self).volatility = self.volatility ∧
    (run self).interest_rate = self.interest_rate :=
  ⟨rfl, rfl, rfl, rfl, rfl⟩

/-- Claim C1: for parameters with positive maturity, strike, spot and
volatility, the engine computes d1, d2, the call price and the put price by
exactly the closed-form expressions displayed in the specification. -/
theorem c1_run_matches_spec_formulas (T K S σ r : ℝ)
    (hT : 0 < T) (hK : 0 < K) (hS : 0 < S) (hσ : 0 < σ) :
    calculate_d1 T K S σ r = spec_d1 S K σ r T ∧
    calculate_d2 T σ (calculate_d1 T K S σ r) = spec_d2 S K σ r T ∧
    (run (mkBS T K S σ r)).call_price = some (spec_call_price S K σ r T) ∧
    (run (mkBS T K S σ r)).put_price = some (spec_put_price S K σ r T) := by
  refine ⟨rfl, rfl, ?_, ?_⟩
  · rw [run_call_price]
    simp only [mkBS, call_option_price, spec_call_price, spec_d2, spec_d1,
      calculate_d1, calculate_d2, neg_mul]
  · rw [run_put_price]
    simp only [mkBS, put_option_price, spec_put_price, spec_d2, spec_d1,
      calculate_d1, calculate_d2, neg_mul]

theorem c1_run_matches_spec_formulas_witness :
    calculate_d1 2 90 100 0.2 0.05 = spec_d1 100 90 0.2 0.05 2 ∧
    calculate_d2 2 0.2 (calculate_d1 2 90 100 0.2 0.05) = spec_d2 100 90 0.2 0.05 2 ∧
    (run (mkBS 2 90 100 0.2 0.05)).call_price = some (spec_call_price 100 90 0.2 0.05 2) ∧
    (run (mkBS 2 90 100 0.2 0.05)).put_price = some (spec_put_price 100 90 0.2 0.05 2) :=
  c1_run_matches_spec_formulas 2 90 100 0.2 0.05
    (by norm_num) (by norm_num) (by norm_num) (by norm_num)

/-- Claim C2, counterexample: with time_to_maturity = 0 (an invalid parameter
set in the sense of the claim, all other parameters valid) the evaluation does
not fail at all — it returns normally, so in particular it does not fail with
InvalidParameter. -/
theorem c2_counterexample_no_failure_at_zero_maturity :
    runE (mkBS 0 90 100 0.2 0.05) = Except.ok (run (mkBS 0 90 100 0.2 0.05)) := by
  have h : (mkBS 0 90 100 0.2 0.05).strike ≠ 0 := by
    norm_num [mkBS]
  simp [runE, h]

/-- Claim C2, amended: the engine performs no parameter validation whatsoever.
No evaluation ever fails with InvalidParameter; whenever strike is nonzero the
evaluation returns normally (for any maturity, spot, volatility and any —
possibly negative — interest rate), and when strike is zero it raises
ZeroDivisionError from the float division current_price / strike, still not
InvalidParameter. -/
theorem c2_amended_no_validation (self : BlackScholes) :
    runE self ≠ Except.error PyError.invalidParameter ∧
    (self.strike ≠ 0 → runE self = Except.ok (run self)) ∧
    (self.strike = 0 → runE self = Except.error PyError.zeroDivisionError) := by
  unfold runE
  by_cases h : self.strike = 0 <;> simp [h]

theorem c2_amended_no_validation_witness :
    runE (mkBS 0 90 100 0.2 (-0.05)) ≠ Except.error PyError.invalidParameter ∧
    runE (mkBS 0 90 100 0.2 (-0.05)) = Except.ok (run (mkBS 0 90 100 0.2 (-0.05))) ∧
    runE (mkBS 1 0 100 0.2 0.05) = Except.error PyError.zeroDivisionError :=
  ⟨(c2_amended_no_validation (mkBS 0 90 100 0.2 (-0.05))).1,
   (c2_amended_no_validation (mkBS 0 90 100 0.2 (-0.05))).2.1 (by norm_num [mkBS]),
   (c2_amended_no_validation (mkBS 1 0 100 0.2 0.05)).2.2 (by norm_num [mkBS])⟩

/-- Claim C5: put-call parity.  For every valid parameter set the call price
minus the put price stored by run equals spot minus the discounted strike. -/
theorem c5_put_call_parity (T K S σ r : ℝ)
    (hT : 0 < T) (hK : 0 < K) (hS : 0 < S) (hσ : 0 < σ) :
    ((run (mkBS T K S σ r)).call_price).getD 0 - ((run (mkBS T K S σ r)).put_price).getD 0
      = S - K * Real.exp (-r * T) := by
  rw [run_call_price, run_put_price]
  unfold mkBS call_option_price put_option_price
  simp only [Option.getD_some]
  rw [normCdf_neg, normCdf_neg]
  simp only [neg_mul]
  ring

theorem c5_put_call_parity_witness :
    ((run (mkBS 2 90 100 0.2 0.05)).call_price).getD 0
        - ((run (mkBS 2 90 100 0.2 0.05)).put_price).getD 0
      = 100 - 90 * Real.exp (-0.05 * 2) :=
  c5_put_call_parity 2 90 100 0.2 0.05 (by norm_num) (by norm_num) (by norm_num) (by norm_num)

/-- Claim C6: the call delta stored by run is the normal CDF at d1 and lies in
the unit interval, and the stored put delta is exactly one minus the call
delta. -/
theorem c6_delta_cdf_and_complement (T K S σ r : ℝ)
    (hT : 0 < T) (hK : 0 < K) (hS : 0 < S) (hσ : 0 < σ) :
    ((run (mkBS T K S σ r)).call_delta).getD 0 = normCdf (calculate_d1 T K S σ r) ∧
    0 ≤ ((run (mkBS T K S σ r)).call_delta).getD 0 ∧
    ((run (mkBS T K S σ r)).call_delta).getD 0 ≤ 1 ∧
    ((run (mkBS T K S σ r)).put_delta).getD 0
      = 1 - ((run (mkBS T K S σ r)).call_delta).getD 0 := by
  exact ⟨rfl, normCdf_nonneg _, normCdf_le_one _, rfl⟩

theorem c6_delta_cdf_and_complement_witness :
    ((run (mkBS 2 90 100 0.2 0.05)).call_delta).getD 0
        = normCdf (calculate_d1 2 90 100 0.2 0.05) ∧
    0 ≤ ((run (mkBS 2 90 100 0.2 0.05)).call_delta).getD 0 ∧
    ((run (mkBS 2 90 100 0.2 0.05)).call_delta).getD 0 ≤ 1 ∧
    ((run (mkBS 2 90 100 0.2 0.05)).put_delta).getD 0
      = 1 - ((run (mkBS 2 90 100 0.2 0.05)).call_delta).getD 0 :=
  c6_delta_cdf_and_complement 2 90 100 0.2 0.05
    (by norm_num) (by norm_num) (by norm_num) (by norm_num)

/-- Claim C7: the call gamma stored by run equals the normal density at d1
divided by strike times volatility times the square root of maturity, the put
gamma equals the call gamma exactly, and both are nonnegative. -/
theorem c7_gamma_formula_and_symmetry (T K S σ r : ℝ)
    (hT : 0 < T) (hK : 0 < K) (hS : 0 < S) (hσ : 0 < σ) :
    ((run (mkBS T K S σ r)).call_gamma).getD 0
      = normPdf (calculate_d1 T K S σ r) / (K * σ * Real.sqrt T) ∧
    ((run (mkBS T K S σ r)).put_gamma).getD 0
      = ((run (mkBS T K S σ r)).call_gamma).getD 0 ∧
    0 ≤ ((run (mkBS T K S σ r)).call_gamma).getD 0 := by
  refine ⟨rfl, rfl, ?_⟩
  have hden : (0:ℝ) ≤ K * σ * Real.sqrt T := by positivity
  exact div_nonneg (normPdf_nonneg _) hden

theorem c7_gamma_formula_and_symmetry_witness :
    ((run (mkBS 2 90 100 0.2 0.05)).call_gamma).getD 0
      = normPdf (calculate_d1 2 90 100 0.2 0.05) / (90 * 0.2 * Real.sqrt 2) ∧
    ((run (mkBS 2 90 100 0.2 0.05)).put_gamma).getD 0
      = ((run (mkBS 2 90 100 0.2 0.05)).call_gamma).getD 0 ∧
    0 ≤ ((run (mkBS 2 90 100 0.2 0.05)).call_gamma).getD 0 :=
  c7_gamma_formula_and_symmetry 2 90 100 0.2 0.05
    (by norm_num) (by norm_num) (by norm_num) (by norm_num)

/-- Claim C9, counterexample: evaluation is not free of side effects on shared
state — run writes the computed call price into the call_price attribute of the
object, so the object observably changes (before the call the attribute does
not exist, afterwards it does). -/
theorem c9_counterexample_run_mutates_object :
    (run (mkBS 2 90 100 0.2 0.05)).call_price ≠ (mkBS 2 90 100 0.2 0.05).call_price := by
  rw [run_call_price]
  simp [mkBS]

/-- Claim C9, amended: the evaluation is deterministic and its effect is
confined to the receiver object, but it is not pure: it communicates its
results solely by mutating the six output attributes of the object (and returns
None), while leaving the five parameter attributes unchanged. -/
theorem c9_amended_mutation_confined_to_object (self : BlackScholes) :
    (run self).time_to_maturity = self.time_to_maturity ∧
    (run self).strike = self.strike ∧
    (run self).current_price = self.current_price ∧
    (run self).volatility = self.volatility ∧
    (run self).interest_rate = self.interest_rate ∧
    (run self).call_price = some (call_option_price self.time_to_maturity self.strike
      self.current_price self.interest_rate
      (calculate_d1 self.time_to_maturity self.strike self.current_price self.volatility
        self.interest_rate)
      (calculate_d2 self.time_to_maturity self.volatility
        (calculate_d1 self.time_to_maturity self.strike self.current_price self.volatility
          self.interest_rate))) ∧
    (run self).put_price = some (put_option_price self.time_to_maturity self.strike
      self.current_price self.interest_rate
      (calculate_d1 self.time_to_maturity self.strike self.current_price self.volatility
        self.interest_rate)
      (calculate_d2 self.time_to_maturity self.volatility
        (calculate_d1 self.time_to_maturity self.strike self.current_price self.volatility
          self.interest_rate))) ∧
    (run self).call_delta = some (normCdf (calculate_d1 self.time_to_maturity self.strike
      self.current_price self.volatility self.interest_rate)) ∧
    (run self).put_delta = some (1 - normCdf (calculate_d1 self.time_to_maturity self.strike
      self.current_price self.volatility self.interest_rate)) ∧
    (run self).put_gamma = (run self).call_gamma ∧
    run_return self = PyVal.none :=
  ⟨rfl, rfl, rfl, rfl, rfl, rfl, rfl, rfl, rfl, rfl, rfl⟩

/-- Claim C10: run returns None (there is no return statement), the computed
prices being exposed only as attributes of the mutated object, so tuple
unpacking of the returned value — as the callers at streamlit_app.py lines 122
and 141 do — raises TypeError instead of yielding the prices. -/
theorem c10_run_returns_none_so_unpacking_raises (self : BlackScholes) :
    run_return self = PyVal.none ∧
    unpack2 (run_return self) = Except.error PyError.typeError ∧
    (run self).call_price = some (call_option_price self.time_to_maturity self.strike
      self.current_price self.interest_rate
      (calculate_d1 self.time_to_maturity self.strike self.current_price self.volatility
        self.interest_rate)
      (calculate_d2 self.time_to_maturity self.volatility
        (calculate_d1 self.time_to_maturity self.strike self.current_price self.volatility
          self.interest_rate))) :=
  ⟨rfl, rfl, rfl⟩

lemma getD_map_matrix {α : Type} (f : ℝ → ℝ → α) (rows cols : List ℝ) (d : α)
    {i j : ℕ} (hi : i < rows.length) (hj : j < cols.length) :
    ((rows.map fun v => cols.map fun s => f v s).getD i []).getD j d
      = f (rows.getD i 0) (cols.getD j 0) := by
  have hi' : i < (rows.map fun v => cols.map fun s => f v s).length := by simpa using hi
  rw [List.getD_eq_getElem _ _ hi', List.getElem_map]
  have hj' : j < (cols.map fun s => f rows[i] s).length := by simpa using hj
  rw [List.getD_eq_getElem _ _ hj', List.getElem_map]
  rw [List.getD_eq_getElem rows 0 hi, List.getD_eq_getElem cols 0 hj]

/-- Claim C3: the sweep of plot_heatmap produces call and put matrices with one
row per volatility axis entry and one column per spot axis entry (volatility is
the ascending outer index, spot the ascending inner index), and cell [i][j] of
each matrix holds the corresponding attribute of a fresh engine evaluation at
spot = spotAxis[j], volatility = volAxis[i], the fixed strike, and the base
object's time_to_maturity and interest_rate. -/
theorem c3_sweep_shape_and_cells (bs_model : BlackScholes) (spot_range vol_range : List ℝ)
    (strike : ℝ) :
    ((plot_heatmap bs_model spot_range vol_range strike).1).length = vol_range.length ∧
    ((plot_heatmap bs_model spot_range vol_range strike).2).length = vol_range.length ∧
    (∀ row ∈ (plot_heatmap bs_model spot_range vol_range strike).1,
      row.length = spot_range.length) ∧
    (∀ row ∈ (plot_heatmap bs_model spot_range vol_range strike).2,
      row.length = spot_range.length) ∧
    (∀ i j, i < vol_range.length → j < spot_range.length →
      (((plot_heatmap bs_model spot_range vol_range strike).1).getD i []).getD j 0 =
        ((run (mkBS bs_model.time_to_maturity strike (spot_range.getD j 0)
          (vol_range.getD i 0) bs_model.interest_rate)).call_price).getD 0) ∧
    (∀ i j, i < vol_range.length → j < spot_range.length →
      (((plot_heatmap bs_model spot_range vol_range strike).2).getD i []).getD j 0 =
        ((run (mkBS bs_model.time_to_maturity strike (spot_range.getD j 0)
          (vol_range.getD i 0) bs_model.interest_rate)).put_price).getD 0) := by
  refine ⟨by simp [plot_heatmap], by simp [plot_heatmap], ?_, ?_, ?_, ?_⟩
  · intro row hrow
    simp only [plot_heatmap, List.mem_map] at hrow
    obtain ⟨v, _, rfl⟩ := hrow
    simp
  · intro row hrow
    simp only [plot_heatmap, List.mem_map] at hrow
    obtain ⟨v, _, rfl⟩ := hrow
    simp
  · intro i j hi hj
    exact getD_map_matrix
      (fun vol spot => ((run (mkBS bs_model.time_to_maturity strike spot vol
        bs_model.interest_rate)).call_price).getD 0) vol_range spot_range 0 hi hj
  · intro i j hi hj
    exact getD_map_matrix
      (fun vol spot => ((run (mkBS bs_model.time_to_maturity strike spot vol
        bs_model.interest_rate)).put_price).getD 0) vol_range spot_range 0 hi hj

theorem c3_sweep_shape_and_cells_witness :
    ((plot_heatmap (mkBS 1 100 100 0.2 0.05) [95, 105] [0.1, 0.3] 100).1).length = 2 ∧
    (((plot_heatmap (mkBS 1 100 100 0.2 0.05) [95, 105] [0.1, 0.3] 100).1).getD 1 []).getD 0 0
      = ((run (mkBS 1 100 95 0.3 0.05)).call_price).getD 0 := by
  constructor
  · have h := (c3_sweep_shape_and_cells (mkBS 1 100 100 0.2 0.05) [95, 105] [0.1, 0.3] 100).1
    simpa using h
  · have h := (c3_sweep_shape_and_cells (mkBS 1 100 100 0.2 0.05)
      [95, 105] [0.1, 0.3] 100).2.2.2.2.1 1 0 (by norm_num) (by norm_num)
    simpa [mkBS] using h

/-- Claim C4: the P&L sweep never reaches its P&L formula.  On the very first
cell, plot_pnl_heatmap executes the statement
call_price, put_price = bs_temp.run(), which tuple-unpacks the None that run
returns and therefore raises TypeError; at the spec's own scenario (S = 100,
K = 90, purchase price 10) the whole sweep evaluates to that TypeError instead
of a matrix of P&L values. -/
theorem c4_pnl_sweep_raises_typeerror :
    plot_pnl_heatmap (mkBS 1 90 100 0.2 0.05) [100] [0.2] 90 10 10
      = Except.error PyError.typeError := rfl

/-!
Analysis for the monotonicity claim: derivatives of the pricing formula in the
spot and in the volatility, via the key identity
K·e^(−rT)·φ(d2) = S·φ(d1).
-/

lemma parity_raw (T K S r d1 d2 : ℝ) :
    call_option_price T K S r d1 d2 - put_option_price T K S r d1 d2
      = S - K * Real.exp (-(r * T)) := by
  unfold call_option_price put_option_price
  rw [normCdf_neg, normCdf_neg]
  ring

lemma d1_mul_denom (T K S σ r : ℝ) (hT : 0 < T) (hσ : 0 < σ) :
    calculate_d1 T K S σ r * (σ * Real.sqrt T)
      = Real.log (S / K) + (r + 0.5 * σ ^ 2) * T := by
  have hst : σ * Real.sqrt T ≠ 0 := (mul_pos hσ (Real.sqrt_pos.mpr hT)).ne'
  unfold calculate_d1
  field_simp

lemma gauss_identity (T K S σ r : ℝ)
    (hT : 0 < T) (hK : 0 < K) (hS : 0 < S) (hσ : 0 < σ) :
    K * Real.exp (-(r * T)) * normPdf (calculate_d2 T σ (calculate_d1 T K S σ r))
      = S * normPdf (calculate_d1 T K S σ r) := by
  have hst2 : (σ * Real.sqrt T) ^ 2 = σ ^ 2 * T := by
    rw [mul_pow, Real.sq_sqrt hT.le]
  have hd1st := d1_mul_denom T K S σ r hT hσ
  have hkey : -(r * T) + -((calculate_d1 T K S σ r - σ * Real.sqrt T) ^ 2) / 2
      = Real.log (S / K) + -(calculate_d1 T K S σ r ^ 2) / 2 := by
    have hx : (calculate_d1 T K S σ r - σ * Real.sqrt T) ^ 2
        = calculate_d1 T K S σ r ^ 2
          - 2 * (calculate_d1 T K S σ r * (σ * Real.sqrt T))
          + (σ * Real.sqrt T) ^ 2 := by ring
    rw [hx, hd1st, hst2]
    ring
  have hSK : Real.exp (Real.log (S / K)) = S / K := Real.exp_log (div_pos hS hK)
  unfold normPdf calculate_d2
  calc K * Real.exp (-(r * T)) *
        ((Real.sqrt (2 * Real.pi))⁻¹ *
          Real.exp (-((calculate_d1 T K S σ r - σ * Real.sqrt T) ^ 2) / 2))
      = (Real.sqrt (2 * Real.pi))⁻¹ * K *
          Real.exp (-(r * T) + -((calculate_d1 T K S σ r - σ * Real.sqrt T) ^ 2) / 2) := by
        rw [Real.exp_add]
        ring
    _ = (Real.sqrt (2 * Real.pi))⁻¹ * K *
          Real.exp (Real.log (S / K) + -(calculate_d1 T K S σ r ^ 2) / 2) := by
        rw [hkey]
    _ = (Real.sqrt (2 * Real.pi))⁻¹ * K *
          ((S / K) * Real.exp (-(calculate_d1 T K S σ r ^ 2) / 2)) := by
        rw [Real.exp_add, hSK]
    _ = S * ((Real.sqrt (2 * Real.pi))⁻¹ * Real.exp (-(calculate_d1 T K S σ r ^ 2) / 2)) := by
        field_simp
        ring

lemma hasDerivAt_d1_spot (T K σ r : ℝ) (hK : 0 < K) {S : ℝ} (hS : 0 < S) :
    HasDerivAt (fun s => calculate_d1 T K s σ r)
      (1 / S / (σ * Real.sqrt T)) S := by
  have hdiv : HasDerivAt (fun s : ℝ => s / K) (1 / K) S := by
    simpa using (hasDerivAt_id S).div_const K
  have hlog : HasDerivAt (fun s : ℝ => Real.log (s / K)) ((S / K)⁻¹ * (1 / K)) S :=
    (Real.hasDerivAt_log (div_pos hS hK).ne').comp S hdiv
  have hval : (S / K)⁻¹ * (1 / K) = 1 / S := by
    field_simp
    ring
  rw [hval] at hlog
  have hnum : HasDerivAt
      (fun s : ℝ => Real.log (s / K) + (r + 0.5 * σ ^ 2) * T) (1 / S) S :=
    hlog.add_const _
  exact hnum.div_const _

lemma hasDerivAt_call_spot (T K σ r : ℝ)
    (hT : 0 < T) (hK : 0 < K) (hσ : 0 < σ) {S : ℝ} (hS : 0 < S) :
    HasDerivAt
      (fun s => call_option_price T K s r (calculate_d1 T K s σ r)
        (calculate_d2 T σ (calculate_d1 T K s σ r)))
      (normCdf (calculate_d1 T K S σ r)) S := by
  have hd1 := hasDerivAt_d1_spot T K σ r hK hS
  have hd2 : HasDerivAt (fun s => calculate_d2 T σ (calculate_d1 T K s σ r))
      (1 / S / (σ * Real.sqrt T)) S := by
    unfold calculate_d2
    exact hd1.sub_const _
  have hΦ1 : HasDerivAt (fun s => normCdf (calculate_d1 T K s σ r))
      (normPdf (calculate_d1 T K S σ r) * (1 / S / (σ * Real.sqrt T))) S :=
    (hasDerivAt_normCdf _).comp S hd1
  have hΦ2 : HasDerivAt (fun s => normCdf (calculate_d2 T σ (calculate_d1 T K s σ r)))
      (normPdf (calculate_d2 T σ (calculate_d1 T K S σ r)) * (1 / S / (σ * Real.sqrt T))) S :=
    (hasDerivAt_normCdf _).comp S hd2
  have hmul : HasDerivAt (fun s => s * normCdf (calculate_d1 T K s σ r))
      (1 * normCdf (calculate_d1 T K S σ r) +
        S * (normPdf (calculate_d1 T K S σ r) * (1 / S / (σ * Real.sqrt T)))) S :=
    (hasDerivAt_id' S).mul hΦ1
  have hsub := hmul.sub (hΦ2.const_mul (K * Real.exp (-(r * T))))
  have hslope : 1 * normCdf (calculate_d1 T K S σ r) +
        S * (normPdf (calculate_d1 T K S σ r) * (1 / S / (σ * Real.sqrt T))) -
      K * Real.exp (-(r * T)) *
        (normPdf (calculate_d2 T σ (calculate_d1 T K S σ r)) * (1 / S / (σ * Real.sqrt T)))
      = normCdf (calculate_d1 T K S σ r) := by
    have e2 : K * Real.exp (-(r * T)) *
        (normPdf (calculate_d2 T σ (calculate_d1 T K S σ r)) * (1 / S / (σ * Real.sqrt T)))
        = K * Real.exp (-(r * T)) * normPdf (calculate_d2 T σ (calculate_d1 T K S σ r)) *
          (1 / S / (σ * Real.sqrt T)) := by ring
    rw [e2, gauss_identity T K S σ r hT hK hS hσ]
    ring
  rw [hslope] at hsub
  unfold call_option_price
  exact hsub

lemma callPrice_monotoneOn_spot (T K σ r : ℝ)
    (hT : 0 < T) (hK : 0 < K) (hσ : 0 < σ) :
    MonotoneOn
      (fun s => call_option_price T K s r (calculate_d1 T K s σ r)
        (calculate_d2 T σ (calculate_d1 T K s σ r)))
      (Set.Ioi 0) := by
  have hcont : ContinuousOn
      (fun s => call_option_price T K s r (calculate_d1 T K s σ r)
        (calculate_d2 T σ (calculate_d1 T K s σ r))) (Set.Ioi 0) := by
    intro s hs
    exact (hasDerivAt_call_spot T K σ r hT hK hσ hs).continuousAt.continuousWithinAt
  have hderiv : ∀ x ∈ interior (Set.Ioi (0:ℝ)), HasDerivWithinAt
      (fun s => call_option_price T K s r (calculate_d1 T K s σ r)
        (calculate_d2 T σ (calculate_d1 T K s σ r)))
      (normCdf (calculate_d1 T K x σ r)) (interior (Set.Ioi (0:ℝ))) x := by
    intro x hx
    rw [interior_Ioi] at hx
    exact (hasDerivAt_call_spot T K σ r hT hK hσ hx).hasDerivWithinAt
  exact monotoneOn_of_hasDerivWithinAt_nonneg (convex_Ioi 0) hcont hderiv
    fun x _ => normCdf_nonneg _

lemma spot_sub_callPrice_monotoneOn_spot (T K σ r : ℝ)
    (hT : 0 < T) (hK : 0 < K) (hσ : 0 < σ) :
    MonotoneOn
      (fun s => s - call_option_price T K s r (calculate_d1 T K s σ r)
        (calculate_d2 T σ (calculate_d1 T K s σ r)))
      (Set.Ioi 0) := by
  have hcont : ContinuousOn
      (fun s => s - call_option_price T K s r (calculate_d1 T K s σ r)
        (calculate_d2 T σ (calculate_d1 T K s σ r))) (Set.Ioi 0) := by
    intro s hs
    exact ((hasDerivAt_id' s).sub
      (hasDerivAt_call_spot T K σ r hT hK hσ hs)).continuousAt.continuousWithinAt
  have hderiv : ∀ x ∈ interior (Set.Ioi (0:ℝ)), HasDerivWithinAt
      (fun s => s - call_option_price T K s r (calculate_d1 T K s σ r)
        (calculate_d2 T σ (calculate_d1 T K s σ r)))
      (1 - normCdf (calculate_d1 T K x σ r)) (interior (Set.Ioi (0:ℝ))) x := by
    intro x hx
    rw [interior_Ioi] at hx
    exact ((hasDerivAt_id' x).sub
      (hasDerivAt_call_spot T K σ r hT hK hσ hx)).hasDerivWithinAt
  exact monotoneOn_of_hasDerivWithinAt_nonneg (convex_Ioi 0) hcont hderiv
    fun x _ => sub_nonneg.mpr (normCdf_le_one _)

lemma hasDerivAt_d1_vol (T K S r : ℝ) (hT : 0 < T) {σ : ℝ} (hσ : 0 < σ) :
    HasDerivAt (fun v => calculate_d1 T K S v r)
      ((σ * T * (σ * Real.sqrt T) -
        (Real.log (S / K) + (r + 0.5 * σ ^ 2) * T) * Real.sqrt T) /
        (σ * Real.sqrt T) ^ 2) σ := by
  have hN : HasDerivAt (fun v : ℝ => Real.log (S / K) + (r + 0.5 * v ^ 2) * T) (σ * T) σ := by
    have h2 : HasDerivAt (fun v : ℝ => v ^ 2) (2 * σ) σ := by
      simpa using hasDerivAt_pow 2 σ
    have h3 : HasDerivAt (fun v : ℝ => r + 0.5 * v ^ 2) (0.5 * (2 * σ)) σ :=
      (h2.const_mul 0.5).const_add r
    have h4 := h3.mul_const T
    have hv : 0.5 * (2 * σ) * T = σ * T := by ring
    rw [hv] at h4
    exact h4.const_add _
  have hD : HasDerivAt (fun v : ℝ => v * Real.sqrt T) (Real.sqrt T) σ := by
    simpa using (hasDerivAt_id' σ).mul_const (Real.sqrt T)
  have hDne : σ * Real.sqrt T ≠ 0 := (mul_pos hσ (Real.sqrt_pos.mpr hT)).ne'
  exact hN.div hD hDne

lemma hasDerivAt_call_vol (T K S r : ℝ)
    (hT : 0 < T) (hK : 0 < K) (hS : 0 < S) {σ : ℝ} (hσ : 0 < σ) :
    HasDerivAt
      (fun v => call_option_price T K S r (calculate_d1 T K S v r)
        (calculate_d2 T v (calculate_d1 T K S v r)))
      (Real.sqrt T * (S * normPdf (calculate_d1 T K S σ r))) σ := by
  set sl := (σ * T * (σ * Real.sqrt T) -
      (Real.log (S / K) + (r + 0.5 * σ ^ 2) * T) * Real.sqrt T) /
      (σ * Real.sqrt T) ^ 2 with hsl
  have hd1 : HasDerivAt (fun v => calculate_d1 T K S v r) sl σ :=
    hasDerivAt_d1_vol T K S r hT hσ
  have hd2 : HasDerivAt (fun v => calculate_d2 T v (calculate_d1 T K S v r))
      (sl - Real.sqrt T) σ := by
    have hD : HasDerivAt (fun v : ℝ => v * Real.sqrt T) (Real.sqrt T) σ := by
      simpa using (hasDerivAt_id' σ).mul_const (Real.sqrt T)
    unfold calculate_d2
    exact hd1.sub hD
  have hΦ1 : HasDerivAt (fun v => normCdf (calculate_d1 T K S v r))
      (normPdf (calculate_d1 T K S σ r) * sl) σ :=
    (hasDerivAt_normCdf _).comp σ hd1
  have hΦ2 : HasDerivAt (fun v => normCdf (calculate_d2 T v (calculate_d1 T K S v r)))
      (normPdf (calculate_d2 T σ (calculate_d1 T K S σ r)) * (sl - Real.sqrt T)) σ :=
    (hasDerivAt_normCdf _).comp σ hd2
  have hG := (hΦ1.const_mul S).sub (hΦ2.const_mul (K * Real.exp (-(r * T))))
  have hslope : S * (normPdf (calculate_d1 T K S σ r) * sl) -
      K * Real.exp (-(r * T)) *
        (normPdf (calculate_d2 T σ (calculate_d1 T K S σ r)) * (sl - Real.sqrt T))
      = Real.sqrt T * (S * normPdf (calculate_d1 T K S σ r)) := by
    have e2 : K * Real.exp (-(r * T)) *
        (normPdf (calculate_d2 T σ (calculate_d1 T K S σ r)) * (sl - Real.sqrt T))
        = K * Real.exp (-(r * T)) * normPdf (calculate_d2 T σ (calculate_d1 T K S σ r)) *
          (sl - Real.sqrt T) := by ring
    rw [e2, gauss_identity T K S σ r hT hK hS hσ]
    ring
  rw [hslope] at hG
  unfold call_option_price
  exact hG

lemma callPrice_monotoneOn_vol (T K S r : ℝ) (hT : 0 < T) (hK : 0 < K) (hS : 0 < S) :
    MonotoneOn
      (fun v => call_option_price T K S r (calculate_d1 T K S v r)
        (calculate_d2 T v (calculate_d1 T K S v r)))
      (Set.Ioi 0) := by
  have hcont : ContinuousOn
      (fun v => call_option_price T K S r (calculate_d1 T K S v r)
        (calculate_d2 T v (calculate_d1 T K S v r))) (Set.Ioi 0) := by
    intro v hv
    exact (hasDerivAt_call_vol T K S r hT hK hS hv).continuousAt.continuousWithinAt
  have hderiv : ∀ x ∈ interior (Set.Ioi (0:ℝ)), HasDerivWithinAt
      (fun v => call_option_price T K S r (calculate_d1 T K S v r)
        (calculate_d2 T v (calculate_d1 T K S v r)))
      (Real.sqrt T * (S * normPdf (calculate_d1 T K S x r))) (interior (Set.Ioi (0:ℝ))) x := by
    intro x hx
    rw [interior_Ioi] at hx
    exact (hasDerivAt_call_vol T K S r hT hK hS hx).hasDerivWithinAt
  exact monotoneOn_of_hasDerivWithinAt_nonneg (convex_Ioi 0) hcont hderiv
    fun x _ => mul_nonneg (Real.sqrt_nonneg T) (mul_nonneg hS.le (normPdf_nonneg _))

lemma runCall_eq (T K S σ r : ℝ) :
    ((run (mkBS T K S σ r)).call_price).getD 0
      = call_option_price T K S r (calculate_d1 T K S σ r)
        (calculate_d2 T σ (calculate_d1 T K S σ r)) := rfl

lemma runPut_eq (T K S σ r : ℝ) :
    ((run (mkBS T K S σ r)).put_price).getD 0
      = put_option_price T K S r (calculate_d1 T K S σ r)
        (calculate_d2 T σ (calculate_d1 T K S σ r)) := rfl

/-- Claim C8: over valid parameter sets differing only in the named input, the
engine's call price is non-decreasing in spot and in volatility, and the put
price is non-increasing in spot and non-decreasing in volatility. -/
theorem c8_monotonicity :
    (∀ T K σ r S1 S2 : ℝ, 0 < T → 0 < K → 0 < σ → 0 < S1 → S1 ≤ S2 →
      ((run (mkBS T K S1 σ r)).call_price).getD 0
        ≤ ((run (mkBS T K S2 σ r)).call_price).getD 0) ∧
    (∀ T K S r σ1 σ2 : ℝ, 0 < T → 0 < K → 0 < S → 0 < σ1 → σ1 ≤ σ2 →
      ((run (mkBS T K S σ1 r)).call_price).getD 0
        ≤ ((run (mkBS T K S σ2 r)).call_price).getD 0) ∧
    (∀ T K σ r S1 S2 : ℝ, 0 < T → 0 < K → 0 < σ → 0 < S1 → S1 ≤ S2 →
      ((run (mkBS T K S2 σ r)).put_price).getD 0
        ≤ ((run (mkBS T K S1 σ r)).put_price).getD 0) ∧
    (∀ T K S r σ1 σ2 : ℝ, 0 < T → 0 < K → 0 < S → 0 < σ1 → σ1 ≤ σ2 →
      ((run (mkBS T K S σ1 r)).put_price).getD 0
        ≤ ((run (mkBS T K S σ2 r)).put_price).getD 0) := by
  refine ⟨?_, ?_, ?_, ?_⟩
  · intro T K σ r S1 S2 hT hK hσ hS1 hle
    rw [runCall_eq, runCall_eq]
    exact callPrice_monotoneOn_spot T K σ r hT hK hσ (Set.mem_Ioi.mpr hS1)
      (Set.mem_Ioi.mpr (lt_of_lt_of_le hS1 hle)) hle
  · intro T K S r σ1 σ2 hT hK hS hσ1 hle
    rw [runCall_eq, runCall_eq]
    exact callPrice_monotoneOn_vol T K S r hT hK hS (Set.mem_Ioi.mpr hσ1)
      (Set.mem_Ioi.mpr (lt_of_lt_of_le hσ1 hle)) hle
  · intro T K σ r S1 S2 hT hK hσ hS1 hle
    rw [runPut_eq, runPut_eq]
    have h1 := spot_sub_callPrice_monotoneOn_spot T K σ r hT hK hσ (Set.mem_Ioi.mpr hS1)
      (Set.mem_Ioi.mpr (lt_of_lt_of_le hS1 hle)) hle
    simp only [] at h1
    have p1 := parity_raw T K S1 r (calculate_d1 T K S1 σ r)
      (calculate_d2 T σ (calculate_d1 T K S1 σ r))
    have p2 := parity_raw T K S2 r (calculate_d1 T K S2 σ r)
      (calculate_d2 T σ (calculate_d1 T K S2 σ r))
    linarith
  · intro T K S r σ1 σ2 hT hK hS hσ1 hle
    rw [runPut_eq, runPut_eq]
    have h1 := callPrice_monotoneOn_vol T K S r hT hK hS (Set.mem_Ioi.mpr hσ1)
      (Set.mem_Ioi.mpr (lt_of_lt_of_le hσ1 hle)) hle
    simp only [] at h1
    have p1 := parity_raw T K S r (calculate_d1 T K S σ1 r)
      (calculate_d2 T σ1 (calculate_d1 T K S σ1 r))
    have p2 := parity_raw T K S r (calculate_d1 T K S σ2 r)
      (calculate_d2 T σ2 (calculate_d1 T K S σ2 r))
    linarith

theorem c8_monotonicity_witness :
    (((run (mkBS 1 100 100 0.2 0.05)).call_price).getD 0
      ≤ ((run (mkBS 1 100 110 0.2 0.05)).call_price).getD 0) ∧
    (((run (mkBS 1 100 100 0.2 0.05)).call_price).getD 0
      ≤ ((run (mkBS 1 100 100 0.3 0.05)).call_price).getD 0) ∧
    (((run (mkBS 1 100 110 0.2 0.05)).put_price).getD 0
      ≤ ((run (mkBS 1 100 100 0.2 0.05)).put_price).getD 0) ∧
    (((run (mkBS 1 100 100 0.2 0.05)).put_price).getD 0
      ≤ ((run (mkBS 1 100 100 0.3 0.05)).put_price).getD 0) :=
  ⟨c8_monotonicity.1 1 100 0.2 0.05 100 110
      (by norm_num) (by norm_num) (by norm_num) (by norm_num) (by norm_num),
   c8_monotonicity.2.1 1 100 100 0.05 0.2 0.3
      (by norm_num) (by norm_num) (by norm_num) (by norm_num) (by norm_num),
   c8_monotonicity.2.2.1 1 100 0.2 0.05 100 110
      (by norm_num) (by norm_num) (by norm_num) (by norm_num) (by norm_num),
   c8_monotonicity.2.2.2 1 100 100 0.05 0.2 0.3
      (by norm_num) (by norm_num) (by norm_num) (by norm_num) (by norm_num)⟩

end BSModel

end
